import Mathlib

/-!
Shallow embedding of the umlizer class-structure extraction pipeline
(src/umlizer/inspector.py, src/umlizer/class_graph.py, src/umlizer/utils.py)
and proofs about its specified behaviour.

Python strings are modelled as Lean `String`s; the Python string methods the
source uses (split, join, rstrip, center, replace, endswith, in) are defined
below with Python semantics, operating on the underlying character lists.
-/

namespace Umlizer

/-! ### Python string primitives -/

/-- All suffixes of a character list, longest first. -/
def charSuffixes : List Char → List (List Char)
  | [] => [[]]
  | c :: cs => (c :: cs) :: charSuffixes cs

/-- Python `needle in hay` for strings: substring containment, i.e. the
needle is a prefix of some suffix of the haystack. -/
def strContains (hay needle : String) : Bool :=
  (charSuffixes hay.data).any fun suf => needle.data.isPrefixOf suf

/-- Python `s.endswith(suffix)`. -/
def strEndsWith (s suffix : String) : Bool :=
  suffix.data.isSuffixOf s.data

/-- Python `s.startswith(pre)`. -/
def strStartsWith (s pre : String) : Bool :=
  pre.data.isPrefixOf s.data

/-- Python `s[:-n]` for `n > 0`: drop the last `n` characters (empty if `n ≥ len`). -/
def strDropRight (s : String) (n : Nat) : String :=
  ⟨s.data.take (s.data.length - n)⟩

/-- Helper for `pySplit`: accumulate the current piece (reversed) while scanning. -/
def splitCharAux (sep : Char) : List Char → List Char → List (List Char)
  | [], acc => [acc.reverse]
  | c :: cs, acc =>
    if c = sep then acc.reverse :: splitCharAux sep cs []
    else splitCharAux sep cs (c :: acc)

/-- Python `s.split(sep)` for a one-character separator: empty pieces are kept,
`''.split(sep) = ['']`. -/
def pySplit (s : String) (sep : Char) : List String :=
  (splitCharAux sep s.data []).map fun l => ⟨l⟩

/-- Python `s.strip()`: remove leading and trailing whitespace. -/
def pyStrip (s : String) : String :=
  ⟨((s.data.dropWhile Char.isWhitespace).reverse.dropWhile Char.isWhitespace).reverse⟩

/-- Python `s.rstrip(chars)`: remove trailing characters belonging to the set
`chars` (each character of `chars` individually, not `chars` as a suffix). -/
def pyRstrip (s : String) (chars : String) : String :=
  ⟨((s.data.reverse).dropWhile (fun c => chars.data.contains c)).reverse⟩

/-- Python `s.center(width, fill)`; CPython puts the extra fill character,
when the margin is odd, according to `marg / 2 + (marg & width & 1)`. -/
def pyCenter (s : String) (width : Nat) (fill : Char) : String :=
  let n := s.data.length
  if width ≤ n then s
  else
    let marg := width - n
    let left := marg / 2 + (marg &&& width &&& 1)
    ⟨List.replicate left fill ++ s.data ++ List.replicate (marg - left) fill⟩

/-- Helper for `pyReplace`: replace every non-overlapping leftmost occurrence
of `pat` by `rep`, scanning left to right (Python `str.replace` semantics for
a non-empty pattern).  The scan advances at least one character per step, so
running it with the list length as fuel always finishes the scan; the fuel
only makes the recursion structural. -/
def replaceListF (pat rep : List Char) : Nat → List Char → List Char
  | _, [] => []
  | 0, l => l
  | fuel + 1, c :: cs =>
    if pat.isPrefixOf (c :: cs) ∧ pat ≠ [] then
      rep ++ replaceListF pat rep fuel (List.drop (pat.length - 1) cs)
    else
      c :: replaceListF pat rep fuel cs

/-- Python `s.replace(pat, rep)` for a non-empty `pat`. -/
def pyReplace (s pat rep : String) : String :=
  ⟨replaceListF pat.data rep.data s.data.length s.data⟩

/-! ### utils.blob_to_regex -/

/-- Characters escaped by Python `re.escape` (CPython `_special_chars_map`):
`()[]{}?*+-|^$\.&~#` space, tab, newline, carriage return, vertical tab,
form feed. -/
def reSpecialChars : List Char :=
  ['(', ')', '[', ']', Char.ofNat 123, Char.ofNat 125, '?', '*', '+', '-',
   '|', '^', '$', '\\', '.', '&', '~', '#', ' ', '\t', '\n', '\r',
   Char.ofNat 11, Char.ofNat 12]

/-- Translation of one character under `re.escape`. -/
def reEscapeChar (c : Char) : List Char :=
  if reSpecialChars.contains c then ['\\', c] else [c]

/-- Python `re.escape`: escape every regex-special character with a backslash. -/
def reEscape (s : String) : String :=
  ⟨s.data.flatMap reEscapeChar⟩

/-- utils.blob_to_regex: escape the pattern, turn the escaped glob tokens back
into their regex equivalents, and anchor the result. -/
def blob_to_regex (blob : String) : String :=
  let b1 := reEscape blob
  let b2 := pyReplace b1 "\\*" ".*"
  let b3 := pyReplace b2 "\\?" "."
  "^" ++ b3 ++ "$"

/-- Per-character effect of the whole escape-then-replace pipeline of
`blob_to_regex`: a glob `*` becomes `.*`, a glob `?` becomes `.`, a
regex-special character is backslash-escaped, and any other character is
kept verbatim (escaping it would be a no-op for the regex engine, and
`re.escape` leaves it alone). -/
def blobCharTrans (c : Char) : List Char :=
  if c = '*' then ['.', '*']
  else if c = '?' then ['.']
  else if reSpecialChars.contains c then ['\\', c]
  else [c]

/-- Intermediate per-character form after the `\*` → `.*` replacement but
before the `\?` → `.` replacement. -/
def blobCharStar (c : Char) : List Char :=
  if c = '*' then ['.', '*'] else reEscapeChar c

/-! ### Semantics of the produced regular expressions

`blob_to_regex` only ever produces anchored regexes built from literal
characters, escaped literal characters, `.` (any one character) and `.*`
(any character sequence).  The matcher below gives full-match semantics to
exactly that language, so that claims about which strings the produced
regex matches can be settled by evaluation. -/

/-- Token of a produced regex: a literal character, `.` or `.*`. -/
inductive RTok where
  | lit (c : Char)
  | anyChar
  | anyStar
deriving DecidableEq

/-- Lex the body of a produced regex (anchors already stripped); `none` on a
dangling backslash. -/
def lexRegex : List Char → Option (List RTok)
  | [] => some []
  | '\\' :: c :: rest => (lexRegex rest).map (RTok.lit c :: ·)
  | ['\\'] => none
  | '.' :: '*' :: rest => (lexRegex rest).map (RTok.anyStar :: ·)
  | '.' :: rest => (lexRegex rest).map (RTok.anyChar :: ·)
  | c :: rest => (lexRegex rest).map (RTok.lit c :: ·)

/-- Full-match of a token list against a character list; `.*` may swallow any
prefix, i.e. the rest of the tokens must match some suffix. -/
def rtokMatch : List RTok → List Char → Bool
  | [], s => s.isEmpty
  | RTok.lit c :: ts, s =>
    match s with
    | [] => false
    | x :: xs => x = c && rtokMatch ts xs
  | RTok.anyChar :: ts, s =>
    match s with
    | [] => false
    | _ :: xs => rtokMatch ts xs
  | RTok.anyStar :: ts, s => (charSuffixes s).any fun suf => rtokMatch ts suf

/-- Strip the `^` prefix and `$` suffix of an anchored regex. -/
def stripAnchors (r : List Char) : Option (List Char) :=
  match r with
  | '^' :: rest =>
    if rest.getLast? = some '$' then some rest.dropLast else none
  | _ => none

/-- Full (anchored) match of a regex produced by `blob_to_regex` against a
string; `false` if the regex is not of the produced shape. -/
def regexFullMatch (regex s : String) : Bool :=
  match stripAnchors regex.data with
  | none => false
  | some body =>
    match lexRegex body with
    | none => false
    | some ts => rtokMatch ts s.data

/-! ### inspector._search_modules and the exclusion set -/

/-- inspector._search_modules / class_graph._search_modules.  The recursive
`glob.glob` enumeration of the target directory is the input list `files`;
a path is kept when no exclusion pattern occurs in it (Python `x in f`,
i.e. literal substring containment) and it ends with `.py`. -/
def _search_modules (files : List String) (exclude_pattern : List String) :
    List String :=
  files.filter fun f =>
    !(exclude_pattern.any fun x => strContains f x) && strEndsWith f ".py"

/-- Exclusion patterns built by inspector.load_classes_definition for a
directory root: the comma-separated `exclude` argument, each piece stripped
(or nothing when `exclude` is empty), with `'__pycache__'` always appended. -/
def buildExcludePatterns (exclude : String) : List String :=
  (if exclude ≠ "" then (pySplit exclude ',').map pyStrip else []) ++
    ["__pycache__"]

/-- Directory branch of inspector.load_classes_definition: the module files
scanned for a directory root, given the enumerated `files` underneath it. -/
def load_classes_search (files : List String) (exclude : String) :
    List String :=
  _search_modules files (buildExcludePatterns exclude)

/-! ### Module-name extraction -/

/-- inspector._extract_module_name: split on the path separator; the directory
part is rejoined, and the filename loses a trailing `.py` when present. -/
def _extract_module_name (module_path : String) : String × String :=
  let module_split := pySplit module_path '/'
  let dir := String.intercalate "/" module_split.dropLast
  let module_filename := module_split.getLastD ""
  let module_name :=
    if strEndsWith module_filename ".py" then strDropRight module_filename 3
    else module_filename
  (dir, module_name)

/-- class_graph._extract_module_name: same split, but the module name is
computed with `module_filename.rstrip('.py')`, which removes every trailing
character belonging to the set containing dot, `p` and `y`. -/
def _extract_module_name_cg (module_path : String) : String × String :=
  let module_split := pySplit module_path '/'
  let dir := String.intercalate "/" module_split.dropLast
  let module_filename := module_split.getLastD ""
  (dir, pyRstrip module_filename ".py")

/-! ### Data model: Python values, the constructor AST, class handles

inspector._get_init_attributes parses the source of `__init__` with `ast` and
walks the tree.  Only the node shapes the walker distinguishes are modelled:
annotated assignments (`ast.AnnAssign`), plain assignments (`ast.Assign`,
which the walker never matches), and anything else. -/

/-- Runtime value of a Python literal (`ast.Constant` payload); `typeName`
is Python `type(v).__name__`. -/
inductive PyVal where
  | intV (n : Int)
  | strV (s : String)
  | boolV (b : Bool)
  | floatV
  | noneV
deriving DecidableEq

/-- Python `type(value).__name__` for a literal value. -/
def PyVal.typeName : PyVal → String
  | .intV _ => "int"
  | .strV _ => "str"
  | .boolV _ => "bool"
  | .floatV => "float"
  | .noneV => "NoneType"

/-- Expression shapes the walker inspects: `ast.Name`, `ast.Constant`,
`ast.Call` (argument list omitted: the walker only looks at `func`), and a
catch-all for every other expression. -/
inductive AstExpr where
  | nameE (id : String)
  | constantE (v : PyVal)
  | callE (func : AstExpr)
  | otherE
deriving DecidableEq

/-- Assignment target shapes: `ast.Attribute` whose value is an `ast.Name`
(e.g. `self.x`), a bare `ast.Name`, and anything else. -/
inductive AstTarget where
  | attributeT (objName : String) (attr : String)
  | nameT (id : String)
  | otherT
deriving DecidableEq

/-- Statement/node shapes yielded by `ast.walk` over the constructor body that
the walker distinguishes: `ast.AnnAssign` (annotated assignment, value
optional), `ast.Assign` (plain assignment, never matched by the walker), and
anything else. -/
inductive AstStmt where
  | annAssign (target : AstTarget) (anno : AstExpr) (value : Option AstExpr)
  | assign (target : AstTarget) (value : AstExpr)
  | otherS
deriving DecidableEq

/-- Python attribute access `e.id` on an expression node: only `ast.Name`
nodes have an `id` field, every other node raises `AttributeError`. -/
def astNameId : AstExpr → Except String String
  | .nameE id => .ok id
  | _ => .error "AttributeError: object has no attribute id"

/-- Class attribute as stored in `klass.__dict__`: a function (with its
`__annotations__`, values already rendered by `_get_fullname`) or a plain
value. -/
inductive PyAttr where
  | funcAttr (anns : List (String × String))
  | valueAttr
deriving DecidableEq

/-- Handle of a loaded Python class: `__name__`, `__qualname__`,
`__module__`, `__bases__`, `__mro__` (as computed by Python, excluding
nothing), `__dict__` (name/attribute pairs in insertion order),
`__annotations__` (values already rendered by `_get_fullname`), the parsed
source of `__init__` when `__init__` is a plain function whose source is
retrievable (`none` otherwise), whether `dataclasses.is_dataclass` holds,
and the `__dataclass_fields__` mapping rendered as
`getattr(v.type, '__name__', 'Any')`. -/
inductive PyClass where
  | mk (name qualname module : String)
      (bases mro : List PyClass)
      (attrs : List (String × PyAttr))
      (anns : List (String × String))
      (initBody : Option (List AstStmt))
      (isDataclass : Bool)
      (dataclassFields : List (String × String))

def PyClass.name : PyClass → String
  | .mk n _ _ _ _ _ _ _ _ _ => n

def PyClass.qualname : PyClass → String
  | .mk _ q _ _ _ _ _ _ _ _ => q

def PyClass.module : PyClass → String
  | .mk _ _ m _ _ _ _ _ _ _ => m

def PyClass.bases : PyClass → List PyClass
  | .mk _ _ _ b _ _ _ _ _ _ => b

def PyClass.mro : PyClass → List PyClass
  | .mk _ _ _ _ m _ _ _ _ _ => m

def PyClass.attrs : PyClass → List (String × PyAttr)
  | .mk _ _ _ _ _ a _ _ _ _ => a

def PyClass.anns : PyClass → List (String × String)
  | .mk _ _ _ _ _ _ a _ _ _ => a

def PyClass.initBody : PyClass → Option (List AstStmt)
  | .mk _ _ _ _ _ _ _ i _ _ => i

def PyClass.isDataclass : PyClass → Bool
  | .mk _ _ _ _ _ _ _ _ d _ => d

def PyClass.dataclassFields : PyClass → List (String × String)
  | .mk _ _ _ _ _ _ _ _ _ f => f

/-- inspector.ClassDef / class_graph.ClassDef: the structural record. -/
structure ClassDef where
  name : String := ""
  module : String := ""
  bases : List String := []
  fields : List (String × String) := []
  methods : List (String × List (String × String)) := []
deriving DecidableEq

/-! ### Python dict update semantics -/

/-- Python `d[k] = v`: replace in place when the key exists (keeping its
position), append otherwise. -/
def dictInsert (d : List (String × String)) (k v : String) :
    List (String × String) :=
  if d.any fun p => p.1 = k then
    d.map fun p => if p.1 = k then (k, v) else p
  else d ++ [(k, v)]

/-- Python `d.update(upd)`. -/
def dictUpdate (d upd : List (String × String)) : List (String × String) :=
  upd.foldl (fun acc p => dictInsert acc p.1 p.2) d

/-! ### Class reflection (inspector.py, with class_graph.py variants) -/

/-- utils.is_function on a class attribute (`inspect.isroutine`). -/
def is_function : PyAttr → Bool
  | .funcAttr _ => true
  | .valueAttr => false

/-- inspector._get_method_annotation / class_graph counterpart: the method's
`__annotations__`, each value rendered by `_get_fullname` (pre-rendered in
the model). -/
def _get_method_anns : PyAttr → List (String × String)
  | .funcAttr anns => anns
  | .valueAttr => []

/-- inspector._get_methods / class_graph._get_methods: the non-dunder routine
attributes of the class dict with their annotation mappings. -/
def _get_methods (k : PyClass) : List (String × List (String × String)) :=
  (k.attrs.filter fun p => !(strStartsWith p.1 "__") && is_function p.2).map
    fun p => (p.1, _get_method_anns p.2)

/-- inspector._get_annotations / class_graph counterpart: the class's
`__annotations__`, values rendered by `_get_fullname` (pre-rendered). -/
def _get_anns (k : PyClass) : List (String × String) :=
  k.anns

/-- inspector._get_dataclass_structure / class_graph counterpart: fields come
from `__dataclass_fields__`. -/
def _get_dataclass_structure (k : PyClass) : ClassDef :=
  { name := "", fields := k.dataclassFields, methods := _get_methods k }

/-- Type chosen for one `self.<attr>` annotated assignment: the source tries,
in order, `node.annotation.id` when the assigned value is an `ast.Name`
(an `AttributeError` escapes when the annotation is not a plain name);
`node.value.func.annotation.id` when the value is a call with an `ast.Name`
callee (which always raises `AttributeError`: `ast.Name` has no field
`annotation`); the runtime type name of an `ast.Constant` literal; and
otherwise the default sentinel `'Any'`. -/
def initAttrType (anno : AstExpr) (value : Option AstExpr) :
    Except String String :=
  match value with
  | some (.nameE _) => astNameId anno
  | some (.callE (.nameE _)) =>
    .error "AttributeError: Name object has no attribute annotation"
  | some (.constantE v) => .ok v.typeName
  | _ => .ok "Any"

/-- Walk of the parsed constructor body (inspector._get_init_attributes /
class_graph counterpart): only `ast.AnnAssign` nodes whose target is
`self.<attr>` contribute; every other node, including plain unannotated
assignments, is skipped. -/
def initAttrWalk : List AstStmt → List (String × String) →
    Except String (List (String × String))
  | [], acc => .ok acc
  | .annAssign target anno value :: rest, acc =>
    match target with
    | .attributeT obj attr =>
      if obj = "self" then
        match initAttrType anno value with
        | .error e => .error e
        | .ok ty => initAttrWalk rest (dictInsert acc attr ty)
      else initAttrWalk rest acc
    | _ => initAttrWalk rest acc
  | _ :: rest, acc => initAttrWalk rest acc

/-- inspector._get_init_attributes / class_graph._get_init_attributes:
empty when there is no plain-function `__init__`, otherwise the walk over
the parsed constructor source. -/
def _get_init_attributes (k : PyClass) :
    Except String (List (String × String)) :=
  match k.initBody with
  | none => .ok []
  | some body => initAttrWalk body []

/-- inspector._get_classic_class_structure: fields from the non-dunder,
non-method class-dict keys via the class annotations (`'UNKNOWN'` when a key
has no annotation), then unconditionally updated with the constructor-scan
attributes. -/
def _get_classic_class_structure (k : PyClass) : Except String ClassDef :=
  let _methods := _get_methods k
  let klass_anno := _get_anns k
  let fields := (k.attrs.map Prod.fst).foldl
    (fun acc key =>
      if strStartsWith key "__" || _methods.any fun m => m.1 = key then acc
      else
        dictInsert acc key
          (((klass_anno.find? fun p => p.1 = key).map Prod.snd).getD
            "UNKNOWN"))
    []
  match _get_init_attributes k with
  | .error e => .error e
  | .ok initAttrs =>
    .ok { fields := dictUpdate fields initAttrs, methods := _methods }

/-- class_graph._get_classic_class_structure: same, except the constructor
scan is used only as a fallback when the annotation-based pass found no
fields at all. -/
def _get_classic_class_structure_cg (k : PyClass) : Except String ClassDef :=
  let _methods := _get_methods k
  let klass_anno := _get_anns k
  let fields := (k.attrs.map Prod.fst).foldl
    (fun acc key =>
      if strStartsWith key "__" || _methods.any fun m => m.1 = key then acc
      else
        dictInsert acc key
          (((klass_anno.find? fun p => p.1 = key).map Prod.snd).getD
            "UNKNOWN"))
    []
  if fields.isEmpty then
    match _get_init_attributes k with
    | .error e => .error e
    | .ok initAttrs => .ok { fields := initAttrs, methods := _methods }
  else
    .ok { fields := fields, methods := _methods }

/-- inspector._get_base_classes: the direct `__bases__`, dropping any base
whose `__name__` is `'object'`. -/
def _get_base_classes (k : PyClass) : List PyClass :=
  k.bases.filter fun b => b.name ≠ "object"

/-- class_graph._get_base_classes: the `__mro__`, dropping every entry whose
`__name__` is `'object'` or equals the class's own `__name__`. -/
def _get_base_classes_cg (k : PyClass) : List PyClass :=
  k.mro.filter fun c => c.name ≠ "object" ∧ c.name ≠ k.name

/-- inspector._get_fullname: `__module__ + '.' + __qualname__` (bare
qualname when the module string is empty). -/
def _get_fullname (k : PyClass) : String :=
  if k.module ≠ "" then k.module ++ "." ++ k.qualname else k.qualname

/-- class_graph._get_fullname: `__module__ + '.' + __name__`. -/
def _get_fullname_cg (k : PyClass) : String :=
  k.module ++ "." ++ k.name

/-- inspector.get_full_class_path.  The filesystem lookup (import the
declaring module, find its `__file__`, test whether it lies beneath
`root_path`, convert the relative path to a dotted package path) is
abstracted as `rootResolve`: `none` when the declaring file is missing or
outside the root (then the intrinsic `_get_fullname` is used), `some p`
when it resolves to the dotted package path `p` (then `p + '.' +
__qualname__`).  Two classes with equal `__module__` receive equal
resolutions, which the model guarantees by keying on `__module__`. -/
def get_full_class_path (rootResolve : String → Option String)
    (k : PyClass) : String :=
  match rootResolve k.module with
  | none => _get_fullname k
  | some package_path => package_path ++ "." ++ k.qualname

/-- inspector._get_class_structure: structure from the dataclass or classic
pass, then name, module and full-path bases filled in. -/
def _get_class_structure (rootResolve : String → Option String)
    (k : PyClass) : Except String ClassDef :=
  let base :=
    if k.isDataclass then Except.ok (_get_dataclass_structure k)
    else _get_classic_class_structure k
  base.map fun cd =>
    { cd with
      module := k.module
      name := get_full_class_path rootResolve k
      bases := (_get_base_classes k).map (get_full_class_path rootResolve) }

/-- class_graph._get_class_structure: same shape, with the intrinsic
fullname and the MRO-based base list. -/
def _get_class_structure_cg (k : PyClass) : Except String ClassDef :=
  let base :=
    if k.isDataclass then Except.ok (_get_dataclass_structure k)
    else _get_classic_class_structure_cg k
  base.map fun cd =>
    { cd with
      module := k.module
      name := _get_fullname_cg k
      bases := (_get_base_classes_cg k).map _get_fullname_cg }

/-! ### Module loader (inspector._get_classes_from_module)

Executing a module body is the one effectful step of the pipeline; the
execution itself is abstracted as an `ExecOutcome`, everything around it
(the `sys.path` push, the try/except structure, the diagnostic printing,
the class collection) is modelled from the source. -/

/-- Member of an executed module namespace: a class object or any other
value (function, constant, submodule, ...). -/
inductive PyMember where
  | classM (c : PyClass)
  | otherM

/-- Executed module namespace: `__name__`, the attributes reachable through
`dir(module)`/`getattr` (name-unique, in `dir` order), and `__all__` when
present. -/
structure PyModuleNS where
  name : String
  members : List (String × PyMember)
  all_exports : Option (List String)

/-- Outcome of `spec_from_file_location` + `module_from_spec` +
`exec_module`: a populated namespace, an ordinary exception (with its
message), or a `KeyboardInterrupt`. -/
inductive ExecOutcome where
  | ok (m : PyModuleNS)
  | failure (errMsg : String)
  | interrupt

/-- Python `getattr(module, name)` as an optional lookup. -/
def moduleGetattr (m : PyModuleNS) (name : String) : Option PyMember :=
  (m.members.find? fun p => p.1 = name).map Prod.snd

/-- The `__all__`-based collection: for each exported name, `getattr` it
(an `AttributeError` escapes for a missing name) and keep it when it is a
class. -/
def exportedClassesGo (m : PyModuleNS) : List String →
    Except String (List PyClass)
  | [] => .ok []
  | n :: rest =>
    match moduleGetattr m n with
    | none => .error ("AttributeError: module has no attribute " ++ n)
    | some (.classM c) => (exportedClassesGo m rest).map (c :: ·)
    | some .otherM => exportedClassesGo m rest

/-- `all_classes_exported` of the source: empty when the module has no
`__all__`. -/
def exportedClasses (m : PyModuleNS) : Except String (List PyClass) :=
  match m.all_exports with
  | none => .ok []
  | some names => exportedClassesGo m names

/-- `all_classes` of the source: every attribute reachable through `dir`
that is a class and whose `__module__` equals the loaded module's
`__name__` (which drops classes merely imported into the module). -/
def definedClasses (m : PyModuleNS) : List PyClass :=
  m.members.filterMap fun p =>
    match p.2 with
    | .classM c => if c.module = m.name then some c else none
    | .otherM => none

/-- The last `n` elements of a list (Python `l[-n:]`). -/
def lastN (n : Nat) (l : List String) : List String :=
  l.drop (l.length - n)

/-- `short_module_path` of the failure branch: the last three
`os.sep`-separated components of the module's directory, joined by dots. -/
def short_module_path (module_path : String) : String :=
  String.intercalate "." (lastN 3 (pySplit module_path '/'))

/-- Header line of the framed diagnostic block:
`f' Error loading module {short_module_path} '.center(80, '=')`. -/
def errHeader (module_path : String) : String :=
  pyCenter (" Error loading module " ++ short_module_path module_path ++ " ")
    80 '='

/-- The 80-dot closing line of the framed diagnostic block. -/
def dots80 : String := ⟨List.replicate 80 '.'⟩

/-- Result of one `_get_classes_from_module` call: the returned class list or
the exit code of an escalated fatal error (`raise_error` raises
`typer.Exit(code)`), the diagnostic lines printed to standard output, and
the value of `sys.path` once the call has returned or raised. -/
structure LoaderResult where
  result : Except Nat (List PyClass)
  stdout : List String
  sysPathAfter : List String

/-- inspector._get_classes_from_module.  `sysPath` is `sys.path` at entry;
the containing directory of `module_file_path` is pushed onto it before
execution.  On success `sys.path` is restored and the defined-in-module
classes are returned followed by the `__all__`-exported ones; a failing
`getattr` on an `__all__` name is an exception inside the `try` and lands
in the generic handler.  On an ordinary exception the framed three-line
diagnostic is printed, `sys.path` is restored and the empty list returned.
On `KeyboardInterrupt`, `raise_error('KeyboardInterrupt', 1)` raises
`typer.Exit(1)` out of the handler: the run aborts and `sys.path` is left
with the pushed directory still in front. -/
def _get_classes_from_module (sysPath : List String)
    (module_file_path : String) (outcome : ExecOutcome) : LoaderResult :=
  let module_path := (_extract_module_name module_file_path).1
  let original_path := sysPath
  let pushed := module_path :: sysPath
  let failed : String → LoaderResult := fun e =>
    { result := .ok []
      stdout := [errHeader module_path, e, dots80]
      sysPathAfter := original_path }
  match outcome with
  | .interrupt =>
    { result := .error 1, stdout := [], sysPathAfter := pushed }
  | .failure e => failed e
  | .ok m =>
    match exportedClasses m with
    | .error e => failed e
    | .ok all_classes_exported =>
      { result := .ok (definedClasses m ++ all_classes_exported)
        stdout := []
        sysPathAfter := original_path }

/-- The per-file loop of inspector.load_classes_definition: each file is
loaded in turn with its own execution outcome; a recovered failure
contributes its (empty) class list and the loop continues, while an
escalated `typer.Exit` propagates immediately and aborts the batch. -/
def loaderBatch : List (String × ExecOutcome) → Except Nat (List PyClass)
  | [] => .ok []
  | (fp, oc) :: rest =>
    match (_get_classes_from_module [] fp oc).result with
    | .error code => .error code
    | .ok cs => (loaderBatch rest).map (cs ++ ·)

/-! ### Diagram assembly (class_graph.create_diagram) -/

/-- class_graph._get_entity_class_uml: the record-shaped node label. -/
def _get_entity_class_uml (klass : ClassDef) : String :=
  let base_classes := String.intercalate ", " klass.bases
  let class_name :=
    if base_classes ≠ "" then
      if base_classes.length < 20 then
        klass.name ++ " (" ++ base_classes ++ ")"
      else
        klass.name ++ " (\\n" ++ pyReplace base_classes ", " ",\\n  " ++ ")"
    else klass.name
  let fields_raw := klass.fields.map fun p =>
    (if strStartsWith p.1 "_" then "-" else "+") ++ " " ++ p.1 ++ ": " ++ p.2
  let fields := String.intercalate "\\l" fields_raw ++ "\\l"
  let methods_raw := klass.methods.map fun m =>
    let m_visibility := if strStartsWith m.1 "_" then "-" else "+"
    let m_type :=
      pyReplace (((m.2.find? fun p => p.1 = "return").map Prod.snd).getD
        "Any") "builtins." ""
    let m_params := String.intercalate ", "
      ((m.2.filter fun p => p.1 ≠ "return").map fun p =>
        p.1 ++ ": " ++ pyReplace p.2 "builtins." "")
    m_visibility ++ " " ++ m.1 ++ "(" ++ m_params ++ "): " ++ m_type
  let methods := String.intercalate "\\l" methods_raw ++ "\\l"
  "\x7b" ++ class_name ++ "|" ++ fields ++ "|" ++ methods ++ "\x7d"

/-- Graph description handed to graphviz: the node statements in emission
order (name, label) and the edge set (`g.edges(set(edges))` deduplicates
the collected pairs as an unordered set). -/
structure Digraph where
  nodes : List (String × String)
  edges : Finset (String × String)

/-- class_graph.create_diagram: one node per record keyed by its name, and
one directed edge (base, name) per base entry, deduplicated as a set. -/
def create_diagram (classes_list : List ClassDef) : Digraph :=
  let nodes := classes_list.map fun k => (k.name, _get_entity_class_uml k)
  let edges := classes_list.flatMap fun k => k.bases.map fun b => (b, k.name)
  { nodes := nodes, edges := edges.toFinset }

/-! ### Concrete instances used by the claims

`c2_class` models the classic class

```python
class Point:
    def __init__(self):
        self.x: int = 5
        self.y = "a"
```

`c9A1`/`c9A2` model module-level class shadowing in a module `m`

```python
class A: pass
class A(A): pass
```

where both classes have `__module__ = 'm'` and `__qualname__ = 'A'`, so
`get_full_class_path` renders both as the same string whichever branch it
takes.  `c9Base`/`c9Child` are an ordinary `Base`/`Child(Base)` pair.
`c5A`/`c5mod` model a module `mod` that defines a class `A` and also lists
it in `__all__`.  `cdA`, `cdB`, `cdB2` are assembled records for `A` and
`B(A)`, with `cdB2` carrying a duplicated base entry. -/

def c2_class : PyClass :=
  .mk "Point" "Point" "m" [] []
    [("__module__", .valueAttr), ("__qualname__", .valueAttr),
     ("__init__", .funcAttr [])]
    []
    (some [AstStmt.annAssign (.attributeT "self" "x") (.nameE "int")
             (some (.constantE (.intV 5))),
           AstStmt.assign (.attributeT "self" "y")
             (.constantE (.strV "a"))])
    false []

def c9A1 : PyClass := .mk "A" "A" "m" [] [] [] [] none false []

def c9A2 : PyClass := .mk "A" "A" "m" [c9A1] [c9A1] [] [] none false []

def c9Base : PyClass := .mk "Base" "Base" "m" [] [] [] [] none false []

def c9Child : PyClass :=
  .mk "Child" "Child" "m" [c9Base] [c9Base] [] [] none false []

def c5A : PyClass := .mk "A" "A" "mod" [] [] [] [] none false []

def c5mod : PyModuleNS :=
  { name := "mod", members := [("A", .classM c5A)],
    all_exports := some ["A"] }

def cdA : ClassDef := { name := "m.A" }

def cdB : ClassDef := { name := "m.B", bases := ["m.A"] }

def cdB2 : ClassDef := { name := "m.B", bases := ["m.A", "m.A"] }

/-! ### Supporting lemmas -/

theorem except_map_eq_ok {α β γ : Type _} {b : Except γ α} {f : α → β}
    {y : β} (h : b.map f = Except.ok y) : ∃ x, b = Except.ok x ∧ y = f x := by
  cases b with
  | error e => simp [Except.map] at h
  | ok x =>
    refine ⟨x, rfl, ?_⟩
    simpa [Except.map] using h.symm

theorem mem_charSuffixes_iff {l' l : List Char} :
    l' ∈ charSuffixes l ↔ l' <:+ l := by
  induction l with
  | nil =>
    simp only [charSuffixes, List.mem_singleton]
    exact ⟨fun h => h ▸ List.suffix_refl _, fun h => List.suffix_nil.mp h⟩
  | cons c cs ih =>
    simp only [charSuffixes, List.mem_cons, ih]
    constructor
    · rintro (rfl | h)
      · exact List.suffix_refl _
      · exact h.trans (List.suffix_cons c cs)
    · rintro ⟨t, ht⟩
      cases t with
      | nil => left; simpa using ht
      | cons a as =>
        right
        refine ⟨as, ?_⟩
        simp only [List.cons_append, List.cons.injEq] at ht
        exact ht.2

theorem strContains_iff {hay needle : String} :
    strContains hay needle = true ↔ needle.data <:+: hay.data := by
  unfold strContains
  rw [List.any_eq_true]
  constructor
  · rintro ⟨suf, hmem, hpre⟩
    rw [List.isPrefixOf_iff_prefix] at hpre
    exact hpre.isInfix.trans (mem_charSuffixes_iff.mp hmem).isInfix
  · rintro ⟨s, t, heq⟩
    refine ⟨needle.data ++ t, ?_, ?_⟩
    · rw [mem_charSuffixes_iff]
      exact ⟨s, by rw [← heq]; simp⟩
    · rw [List.isPrefixOf_iff_prefix]
      exact ⟨t, rfl⟩

theorem infix_pyCenter (s : String) (w : Nat) (f : Char) :
    s.data <:+: (pyCenter s w f).data := by
  unfold pyCenter
  by_cases h : w ≤ s.data.length
  · simp only [h, if_pos, List.infix_refl]
  · simp only [h, if_neg, not_false_iff]
    exact List.infix_append _ _ _

theorem short_module_path_infix_errHeader (p : String) :
    strContains (errHeader p) (short_module_path p) = true := by
  rw [strContains_iff]
  refine List.IsInfix.trans ?_ (infix_pyCenter _ 80 '=')
  have h : (" Error loading module " ++ short_module_path p ++ " ").data =
      " Error loading module ".data ++ (short_module_path p).data ++
        " ".data := by
    simp
  rw [h]
  exact List.infix_append _ _ _

theorem mem_search_modules_iff {files exclude_pattern : List String}
    {f : String} :
    f ∈ _search_modules files exclude_pattern ↔
      f ∈ files ∧ strEndsWith f ".py" = true ∧
        ∀ x ∈ exclude_pattern, strContains f x = false := by
  unfold _search_modules
  rw [List.mem_filter]
  simp only [Bool.and_eq_true, Bool.not_eq_true', List.any_eq_false,
    Bool.not_eq_true]
  tauto

theorem beq_eq_false_of_mem_not_mem {a c : Char} {l : List Char}
    (ha : a ∈ l) (hc : l.contains c = false) : (a == c) = false := by
  rw [beq_eq_false_iff_ne]
  intro he
  subst he
  have hmem : l.contains a = true :=
    List.contains_iff_exists_mem_beq.mpr ⟨a, ha, by simp⟩
  rw [hmem] at hc
  exact absurd hc (by simp)

theorem star_not_prefix_escape (l : List Char) :
    ['*'].isPrefixOf (l.flatMap reEscapeChar) = false := by
  cases l with
  | nil => rfl
  | cons c r =>
    rw [List.flatMap_cons]
    unfold reEscapeChar
    cases hsc : reSpecialChars.contains c with
    | true =>
      simp only [if_pos, List.cons_append, List.isPrefixOf_cons₂]
      simp
    | false =>
      simp only [Bool.false_eq_true, if_neg, not_false_iff,
        List.cons_append, List.nil_append, List.isPrefixOf_cons₂]
      rw [beq_eq_false_of_mem_not_mem (by decide) hsc]
      simp

theorem q_not_prefix_star (l : List Char) :
    ['?'].isPrefixOf (l.flatMap blobCharStar) = false := by
  cases l with
  | nil => rfl
  | cons c r =>
    rw [List.flatMap_cons]
    unfold blobCharStar reEscapeChar
    by_cases h1 : c = '*'
    · simp only [h1, if_pos, List.cons_append, List.isPrefixOf_cons₂]
      simp
    · rw [if_neg h1]
      cases hsc : reSpecialChars.contains c with
      | true =>
        simp only [if_pos, List.cons_append, List.isPrefixOf_cons₂]
        simp
      | false =>
        simp only [Bool.false_eq_true, if_neg, not_false_iff,
          List.cons_append, List.nil_append, List.isPrefixOf_cons₂]
        rw [beq_eq_false_of_mem_not_mem (by decide) hsc]
        simp

theorem replaceListF_nil (pat rep : List Char) (fuel : Nat) :
    replaceListF pat rep fuel [] = [] := by
  cases fuel <;> rfl

theorem replaceListF_cons (pat rep : List Char) (f : Nat) (c : Char)
    (cs : List Char) :
    replaceListF pat rep (f + 1) (c :: cs) =
      if pat.isPrefixOf (c :: cs) ∧ pat ≠ [] then
        rep ++ replaceListF pat rep f (List.drop (pat.length - 1) cs)
      else c :: replaceListF pat rep f cs := rfl

theorem not_replace_cond {pat l : List Char}
    (h : pat.isPrefixOf l = false) : ¬(pat.isPrefixOf l ∧ pat ≠ []) := by
  intro hco
  rw [h] at hco
  exact absurd hco.1 (by simp)

theorem replace_star_escape :
    ∀ (l : List Char) (fuel : Nat),
      (l.flatMap reEscapeChar).length ≤ fuel →
      replaceListF ['\\', '*'] ['.', '*'] fuel (l.flatMap reEscapeChar) =
        l.flatMap blobCharStar := by
  intro l
  induction l with
  | nil =>
    intro fuel _
    exact replaceListF_nil _ _ _
  | cons c r ih =>
    intro fuel hfuel
    rw [List.flatMap_cons] at hfuel ⊢
    rw [List.flatMap_cons]
    by_cases hstar : c = '*'
    · subst hstar
      rw [show reEscapeChar '*' = ['\\', '*'] from rfl] at hfuel ⊢
      rw [show blobCharStar '*' = ['.', '*'] from rfl]
      simp only [List.length_append, List.length_cons, List.length_nil]
        at hfuel
      cases fuel with
      | zero => omega
      | succ f =>
        rw [List.cons_append, List.cons_append, List.nil_append,
          replaceListF_cons,
          if_pos ⟨by simp [List.isPrefixOf_cons₂], by simp⟩]
        rw [show List.drop (List.length (['\\', '*'] : List Char) - 1)
          ('*' :: r.flatMap reEscapeChar) = r.flatMap reEscapeChar from rfl]
        rw [ih f (by omega)]
    · cases hsc : reSpecialChars.contains c with
      | true =>
        have hesc : reEscapeChar c = ['\\', c] := by
          unfold reEscapeChar
          rw [hsc]
          simp
        have hbcs : blobCharStar c = ['\\', c] := by
          unfold blobCharStar
          rw [if_neg hstar, hesc]
        rw [hesc] at hfuel ⊢
        rw [hbcs]
        simp only [List.length_append, List.length_cons, List.length_nil]
          at hfuel
        cases fuel with
        | zero => omega
        | succ f =>
          rw [List.cons_append, List.cons_append, List.nil_append]
          by_cases hback : c = '\\'
          · subst hback
            rw [replaceListF_cons,
              if_neg (not_replace_cond (by simp [List.isPrefixOf_cons₂]))]
            cases f with
            | zero => omega
            | succ g =>
              rw [replaceListF_cons,
                if_neg (not_replace_cond (by
                  rw [List.isPrefixOf_cons₂]
                  simp [star_not_prefix_escape r]))]
              rw [ih g (by omega)]
              rfl
          · have hne : (('*' : Char) == c) = false := by
              rw [beq_eq_false_iff_ne]
              exact fun h => hstar h.symm
            rw [replaceListF_cons,
              if_neg (not_replace_cond (by
                rw [List.isPrefixOf_cons₂, List.isPrefixOf_cons₂, hne]
                simp))]
            cases f with
            | zero => omega
            | succ g =>
              have hne2 : (('\\' : Char) == c) = false := by
                rw [beq_eq_false_iff_ne]
                exact fun h => hback h.symm
              rw [replaceListF_cons,
                if_neg (not_replace_cond (by
                  rw [List.isPrefixOf_cons₂, hne2]
                  simp))]
              rw [ih g (by omega)]
              rfl
      | false =>
        have hesc : reEscapeChar c = [c] := by
          unfold reEscapeChar
          rw [hsc]
          simp
        have hbcs : blobCharStar c = [c] := by
          unfold blobCharStar
          rw [if_neg hstar, hesc]
        rw [hesc] at hfuel ⊢
        rw [hbcs]
        simp only [List.length_append, List.length_cons, List.length_nil]
          at hfuel
        cases fuel with
        | zero => omega
        | succ f =>
          rw [List.cons_append, List.nil_append,
            replaceListF_cons,
            if_neg (not_replace_cond (by
              rw [List.isPrefixOf_cons₂,
                beq_eq_false_of_mem_not_mem (by decide) hsc]
              simp))]
          rw [ih f (by omega)]
          rfl

theorem replace_q_star :
    ∀ (l : List Char) (fuel : Nat),
      (l.flatMap blobCharStar).length ≤ fuel →
      replaceListF ['\\', '?'] ['.'] fuel (l.flatMap blobCharStar) =
        l.flatMap blobCharTrans := by
  intro l
  induction l with
  | nil =>
    intro fuel _
    exact replaceListF_nil _ _ _
  | cons c r ih =>
    intro fuel hfuel
    rw [List.flatMap_cons] at hfuel ⊢
    rw [List.flatMap_cons]
    by_cases hstar : c = '*'
    · subst hstar
      rw [show blobCharStar '*' = ['.', '*'] from rfl] at hfuel ⊢
      rw [show blobCharTrans '*' = ['.', '*'] from rfl]
      simp only [List.length_append, List.length_cons, List.length_nil]
        at hfuel
      cases fuel with
      | zero => omega
      | succ f =>
        rw [List.cons_append, List.cons_append, List.nil_append,
          replaceListF_cons,
          if_neg (not_replace_cond (by simp [List.isPrefixOf_cons₂]))]
        cases f with
        | zero => omega
        | succ g =>
          rw [replaceListF_cons,
            if_neg (not_replace_cond (by simp [List.isPrefixOf_cons₂]))]
          rw [ih g (by omega)]
          rfl
    · by_cases hq : c = '?'
      · subst hq
        rw [show blobCharStar '?' = ['\\', '?'] from rfl] at hfuel ⊢
        rw [show blobCharTrans '?' = ['.'] from rfl]
        simp only [List.length_append, List.length_cons, List.length_nil]
          at hfuel
        cases fuel with
        | zero => omega
        | succ f =>
          rw [List.cons_append, List.cons_append, List.nil_append,
            replaceListF_cons,
            if_pos ⟨by simp [List.isPrefixOf_cons₂], by simp⟩]
          rw [show List.drop (List.length (['\\', '?'] : List Char) - 1)
            ('?' :: r.flatMap blobCharStar) = r.flatMap blobCharStar
            from rfl]
          rw [ih f (by omega)]
      · cases hsc : reSpecialChars.contains c with
        | true =>
          have hbcs : blobCharStar c = ['\\', c] := by
            unfold blobCharStar reEscapeChar
            rw [if_neg hstar, hsc]
            simp
          have hbct : blobCharTrans c = ['\\', c] := by
            unfold blobCharTrans
            rw [if_neg hstar, if_neg hq, hsc]
            simp
          rw [hbcs] at hfuel ⊢
          rw [hbct]
          simp only [List.length_append, List.length_cons, List.length_nil]
            at hfuel
          cases fuel with
          | zero => omega
          | succ f =>
            have hqc : (('?' : Char) == c) = false := by
              rw [beq_eq_false_iff_ne]
              exact fun h => hq h.symm
            rw [List.cons_append, List.cons_append, List.nil_append,
              replaceListF_cons,
              if_neg (not_replace_cond (by
                rw [List.isPrefixOf_cons₂, List.isPrefixOf_cons₂, hqc]
                simp))]
            cases f with
            | zero => omega
            | succ g =>
              by_cases hback : c = '\\'
              · subst hback
                rw [replaceListF_cons,
                  if_neg (not_replace_cond (by
                    rw [List.isPrefixOf_cons₂]
                    simp [q_not_prefix_star r]))]
                rw [ih g (by omega)]
                rfl
              · have hbc : (('\\' : Char) == c) = false := by
                  rw [beq_eq_false_iff_ne]
                  exact fun h => hback h.symm
                rw [replaceListF_cons,
                  if_neg (not_replace_cond (by
                    rw [List.isPrefixOf_cons₂, hbc]
                    simp))]
                rw [ih g (by omega)]
                rfl
        | false =>
          have hbcs : blobCharStar c = [c] := by
            unfold blobCharStar reEscapeChar
            rw [if_neg hstar, hsc]
            simp
          have hbct : blobCharTrans c = [c] := by
            unfold blobCharTrans
            rw [if_neg hstar, if_neg hq, hsc]
            simp
          rw [hbcs] at hfuel ⊢
          rw [hbct]
          simp only [List.length_append, List.length_cons, List.length_nil]
            at hfuel
          cases fuel with
          | zero => omega
          | succ f =>
            rw [List.cons_append, List.nil_append,
              replaceListF_cons,
              if_neg (not_replace_cond (by
                rw [List.isPrefixOf_cons₂,
                  beq_eq_false_of_mem_not_mem (by decide) hsc]
                simp))]
            rw [ih f (by omega)]
            rfl

/-! ### Claims -/

/-- C10: in `_search_modules` a candidate path is excluded exactly when some
exclusion-pattern string occurs as a literal contiguous substring of the
path; no glob interpretation happens, so the pattern `'migrations/*'` (which
contains a `*`) keeps a path with a `migrations` segment, while the regex
that `blob_to_regex` would have produced for that pattern does match the
path's `migrations/m.py` portion. -/
theorem C10_literal_substring_exclusion :
    (∀ (files exclude_pattern : List String) (f : String),
      f ∈ _search_modules files exclude_pattern ↔
        f ∈ files ∧ strEndsWith f ".py" = true ∧
          ∀ x ∈ exclude_pattern, strContains f x = false) ∧
    _search_modules ["root/migrations/m.py"] ["migrations/*"] =
      ["root/migrations/m.py"] ∧
    regexFullMatch (blob_to_regex "migrations/*") "migrations/m.py" = true ∧
    strContains "root/migrations/m.py" "migrations/*" = false := by
  exact ⟨fun _ _ _ => mem_search_modules_iff, rfl, by decide, by decide⟩

/-- C10 witness: the membership characterization applied at a concrete
input. -/
theorem C10_literal_substring_exclusion_witness :
    "a/b.py" ∈ _search_modules ["a/b.py"] ["x"] :=
  (C10_literal_substring_exclusion.1 ["a/b.py"] ["x"] "a/b.py").mpr
    ⟨by simp, by decide, by decide⟩

/-- C3 counterexample: supplying the glob exclusion pattern `'migrations/*'`
does not drop a path containing a `migrations` segment — the scan returns
it unchanged. -/
theorem C3_counterexample :
    load_classes_search ["root/migrations/m.py"] "migrations/*" =
      ["root/migrations/m.py"] := rfl

/-- C3 (amended): for every directory scan, only paths ending in `.py` are
returned, the implicit `'__pycache__'` pattern is appended to every
exclusion set (so any path containing it is dropped), and a supplied
pattern excludes exactly the paths containing it as a literal substring —
the literal pattern `'migrations'` drops paths with a `migrations`
segment, but the glob form `'migrations/*'` does not. -/
theorem C3_scan_exclusions :
    (∀ (files : List String) (exclude f : String),
      f ∈ load_classes_search files exclude ↔
        f ∈ files ∧ strEndsWith f ".py" = true ∧
          ∀ p ∈ buildExcludePatterns exclude, strContains f p = false) ∧
    (∀ exclude : String, "__pycache__" ∈ buildExcludePatterns exclude) ∧
    load_classes_search
      ["root/migrations/m.py", "root/app.py", "root/__pycache__/app.py",
       "root/readme.md"] "migrations" = ["root/app.py"] := by
  refine ⟨fun files exclude f => mem_search_modules_iff, ?_, rfl⟩
  intro exclude
  unfold buildExcludePatterns
  simp

/-- C3 witness: the scan characterization applied at a concrete input. -/
theorem C3_scan_exclusions_witness :
    "root/app.py" ∈ load_classes_search ["root/app.py"] "migrations" :=
  (C3_scan_exclusions.1 ["root/app.py"] "migrations" "root/app.py").mpr
    ⟨by simp, by decide, by decide⟩

/-- C1: a module body that raises an ordinary exception does not propagate:
the loader prints exactly one three-line framed diagnostic block — the
`=`-centered header carrying the module's shortened path, the error
message, and an 80-dot closing line — and returns the empty list, so in
the batch loop the failing file contributes zero classes and the scan of
the remaining files is unchanged; a `KeyboardInterrupt` is instead
escalated through `raise_error` as `typer.Exit` with exit code 1, aborting
the whole batch. -/
theorem C1_load_failure_recovery :
    (∀ (sysPath : List String) (mfp e : String),
      (_get_classes_from_module sysPath mfp (.failure e)).result =
        Except.ok [] ∧
      (_get_classes_from_module sysPath mfp (.failure e)).stdout =
        [errHeader (_extract_module_name mfp).1, e, dots80] ∧
      strContains (errHeader (_extract_module_name mfp).1)
        (short_module_path (_extract_module_name mfp).1) = true) ∧
    (∀ (pre post : List (String × ExecOutcome)) (mfp e : String),
      loaderBatch (pre ++ (mfp, ExecOutcome.failure e) :: post) =
        loaderBatch (pre ++ post)) ∧
    (∀ (sysPath : List String) (mfp : String),
      (_get_classes_from_module sysPath mfp ExecOutcome.interrupt).result =
        Except.error 1) ∧
    (∀ (rest : List (String × ExecOutcome)) (mfp : String),
      loaderBatch ((mfp, ExecOutcome.interrupt) :: rest) =
        Except.error 1) := by
  refine ⟨?_, ?_, fun _ _ => rfl, fun _ _ => rfl⟩
  · intro sysPath mfp e
    exact ⟨rfl, rfl, short_module_path_infix_errHeader _⟩
  · intro pre post mfp e
    induction pre with
    | nil =>
      show (loaderBatch post).map ([] ++ ·) = loaderBatch post
      cases loaderBatch post <;> simp [Except.map]
    | cons hd tl ih =>
      obtain ⟨fp, oc⟩ := hd
      show loaderBatch ((fp, oc) :: (tl ++ _)) = loaderBatch ((fp, oc) :: _)
      unfold loaderBatch
      rw [ih]
      rfl

/-- C2 counterexample: on the spec's own example class the constructor-source
fallback records only the annotated attribute: the fields mapping is
exactly the singleton x ↦ int, not the claimed two-entry mapping that
would also carry y ↦ str. -/
theorem C2_counterexample :
    _get_classic_class_structure c2_class =
      Except.ok { fields := [("x", "int")], methods := [] } ∧
    ([("x", "int")] : List (String × String)) ≠
      [("x", "int"), ("y", "str")] :=
  ⟨rfl, by decide⟩

/-- C2 (amended): the constructor walk matches only annotated assignments
(`ast.AnnAssign`); a plain unannotated assignment such as `self.y = "a"`
is skipped entirely, so the example class yields fields = x ↦ int (the
type inferred from the literal's runtime type), with no entry for y. -/
theorem C2_init_attribute_extraction :
    (∀ (tgt : AstTarget) (v : AstExpr) (rest : List AstStmt)
      (acc : List (String × String)),
      initAttrWalk (AstStmt.assign tgt v :: rest) acc =
        initAttrWalk rest acc) ∧
    _get_classic_class_structure c2_class =
      Except.ok { fields := [("x", "int")], methods := [] } :=
  ⟨fun _ _ _ _ => rfl, rfl⟩

/-- C4 counterexample: on the interrupt exit path the search path is not
restored — after an interrupted load that began with `sys.path = ["p"]`,
the module's directory is still pushed in front. -/
theorem C4_counterexample :
    (_get_classes_from_module ["p"] "d/m.py"
      ExecOutcome.interrupt).sysPathAfter ≠ ["p"] := by decide

/-- C4 (amended): `sys.path` is restored to its pre-call value on the
successful and the caught-failure exit paths; on the interrupt escalation
path `raise_error` raises before any restoration, leaving the pushed
directory in front (the process then terminates with the fatal exit). -/
theorem C4_syspath_restoration :
    (∀ (sp : List String) (mfp : String) (m : PyModuleNS),
      (_get_classes_from_module sp mfp (.ok m)).sysPathAfter = sp) ∧
    (∀ (sp : List String) (mfp e : String),
      (_get_classes_from_module sp mfp (.failure e)).sysPathAfter = sp) ∧
    (∀ (sp : List String) (mfp : String),
      (_get_classes_from_module sp mfp
        ExecOutcome.interrupt).sysPathAfter =
        (_extract_module_name mfp).1 :: sp) := by
  refine ⟨?_, fun _ _ _ => rfl, fun _ _ => rfl⟩
  intro sp mfp m
  unfold _get_classes_from_module
  cases h : exportedClasses m <;> simp [h]

/-- C5 counterexample: a class that is both defined in the module and listed
in `__all__` appears twice in the returned sequence — the loader returns a
concatenation, not a duplicate-free union. -/
theorem C5_counterexample :
    (_get_classes_from_module ["p"] "d/mod.py"
      (ExecOutcome.ok c5mod)).result = Except.ok [c5A, c5A] ∧
    ¬ ([c5A, c5A] : List PyClass).Nodup := by
  refine ⟨rfl, ?_⟩
  simp [List.nodup_cons]

/-- C5 (amended): on success the loader returns the classes defined in the
module (declaring-module attribute equal to the loaded module's name,
which drops merely-imported classes) concatenated with the
`__all__`-exported classes; as a set this is their union, but the
concatenation is not deduplicated, so a class that is both defined and
exported occurs twice. -/
theorem C5_success_collection :
    ∀ (sp : List String) (mfp : String) (m : PyModuleNS)
      (ecs : List PyClass), exportedClasses m = Except.ok ecs →
      (_get_classes_from_module sp mfp (ExecOutcome.ok m)).result =
        Except.ok (definedClasses m ++ ecs) ∧
      ∀ c : PyClass, c ∈ definedClasses m ++ ecs ↔
        c ∈ definedClasses m ∨ c ∈ ecs := by
  intro sp mfp m ecs h
  constructor
  · simp [_get_classes_from_module, h]
  · intro c
    exact List.mem_append

/-- C5 witness: the successful-collection theorem applied to the concrete
module. -/
theorem C5_success_collection_witness :
    exportedClasses c5mod = Except.ok [c5A] ∧
    (_get_classes_from_module ["p"] "d/mod.py"
      (ExecOutcome.ok c5mod)).result =
      Except.ok (definedClasses c5mod ++ [c5A]) :=
  ⟨rfl, (C5_success_collection ["p"] "d/mod.py" c5mod [c5A] rfl).1⟩

/-- C6: the assembler emits one node per record keyed by the record's name,
and the edge set is exactly the set-deduplicated collection of (base,
name) pairs over all records: for `A` and `B(A)` there is exactly one
`A → B` edge, and a duplicated base entry still contributes a single
edge. -/
theorem C6_diagram_nodes_edges :
    (∀ cl : List ClassDef,
      (create_diagram cl).nodes.map Prod.fst = cl.map ClassDef.name) ∧
    (∀ cl : List ClassDef,
      (create_diagram cl).edges =
        (cl.flatMap fun k => k.bases.map fun b => (b, k.name)).toFinset) ∧
    (create_diagram [cdA, cdB]).nodes.map Prod.fst = ["m.A", "m.B"] ∧
    (create_diagram [cdA, cdB]).edges = {("m.A", "m.B")} ∧
    (create_diagram [cdA, cdB2]).edges = {("m.A", "m.B")} := by
  refine ⟨?_, fun _ => rfl, rfl, ?_, ?_⟩
  · intro cl
    simp [create_diagram]
  · decide
  · decide

/-- C7: evaluation at the failing input: inspector's variant removes exactly
the trailing `.py`, but class_graph's variant, written with
`rstrip('.py')`, strips every trailing character from the set containing
dot, `p` and `y`, turning `happy.py` into `ha` rather than `happy`. -/
theorem C7_extract_module_name_eval :
    _extract_module_name "happy.py" = ("", "happy") ∧
    _extract_module_name "a/b/happy.py" = ("a/b", "happy") ∧
    _extract_module_name_cg "happy.py" = ("", "ha") ∧
    _extract_module_name_cg "a/b/happy.py" = ("a/b", "ha") :=
  ⟨rfl, rfl, rfl, rfl⟩

/-- C8: blob_to_regex translates the glob character by character — `*`
becomes `.*`, `?` becomes `.`, every regex-special character is
backslash-escaped so that it stands for itself (all remaining characters
already stand for themselves) — and wraps the body in `^`/`$` anchors so
the regex only matches the full string: the regex for `foo*.py` fully
matches `foobar.py` and matches neither `xfoobar.py` nor `foobar.pyx`. -/
theorem C8_blob_to_regex_translation :
    (∀ b : String,
      (blob_to_regex b).data =
        '^' :: b.data.flatMap blobCharTrans ++ ['$']) ∧
    blob_to_regex "foo*.py" = "^foo.*\\.py$" ∧
    regexFullMatch (blob_to_regex "foo*.py") "foobar.py" = true ∧
    regexFullMatch (blob_to_regex "foo*.py") "xfoobar.py" = false ∧
    regexFullMatch (blob_to_regex "foo*.py") "foobar.pyx" = false := by
  refine ⟨?_, by decide, by decide, by decide, by decide⟩
  intro b
  have h1 : pyReplace (reEscape b) "\\*" ".*" =
      (⟨b.data.flatMap blobCharStar⟩ : String) :=
    congrArg String.mk
      (replace_star_escape b.data (b.data.flatMap reEscapeChar).length
        (le_refl _))
  have h2 : pyReplace (pyReplace (reEscape b) "\\*" ".*") "\\?" "." =
      (⟨b.data.flatMap blobCharTrans⟩ : String) := by
    rw [h1]
    exact congrArg String.mk
      (replace_q_star b.data (b.data.flatMap blobCharStar).length
        (le_refl _))
  show ("^" ++ pyReplace (pyReplace (reEscape b) "\\*" ".*") "\\?" "." ++
    "$").data = _
  rw [h2]
  simp

/-- C9 counterexample: reflecting the shadowing class `class A(A)` (both
classes share module, name and qualname, hence the same rendered full
path) produces a record whose bases list contains the record's own
name. -/
theorem C9_counterexample :
    _get_class_structure (fun _ => none) c9A2 =
      Except.ok { name := "m.A", module := "m", bases := ["m.A"] } ∧
    (_get_class_structure (fun _ => none) c9A2).map
      (fun cd => cd.bases.contains cd.name) = Except.ok true :=
  ⟨rfl, rfl⟩

/-- C9 (amended): every emitted base entry comes from a base class whose
`__name__` is not `'object'` (both variants); in the MRO variant the
underlying class's `__name__` also differs from the record's own
`__name__`; but the direct-bases variant filters only on `'object'`, so
(as the counterexample shows) a base whose rendered full path coincides
with the record's own name can appear. -/
theorem C9_bases_exclusions :
    (∀ (rr : String → Option String) (k : PyClass) (cd : ClassDef),
      _get_class_structure rr k = Except.ok cd →
      ∀ s ∈ cd.bases, ∃ c, c ∈ k.bases ∧ c.name ≠ "object" ∧
        s = get_full_class_path rr c) ∧
    (∀ (k : PyClass) (cd : ClassDef),
      _get_class_structure_cg k = Except.ok cd →
      ∀ s ∈ cd.bases, ∃ c, c ∈ k.mro ∧ c.name ≠ "object" ∧
        c.name ≠ k.name ∧ s = _get_fullname_cg c) := by
  constructor
  · intro rr k cd h s hs
    unfold _get_class_structure at h
    obtain ⟨cd0, hb, rfl⟩ := except_map_eq_ok h
    simp only [List.mem_map] at hs
    obtain ⟨c, hc, rfl⟩ := hs
    have hmem := List.mem_filter.mp hc
    refine ⟨c, hmem.1, ?_, rfl⟩
    simpa using hmem.2
  · intro k cd h s hs
    unfold _get_class_structure_cg at h
    obtain ⟨cd0, hb, rfl⟩ := except_map_eq_ok h
    simp only [List.mem_map] at hs
    obtain ⟨c, hc, rfl⟩ := hs
    have hmem := List.mem_filter.mp hc
    have hnames := of_decide_eq_true hmem.2
    exact ⟨c, hmem.1, hnames.1, hnames.2, rfl⟩

/-- C9 witness: the base-exclusion theorem applied to a concrete
`Child(Base)` class. -/
theorem C9_bases_exclusions_witness :
    _get_class_structure (fun _ => none) c9Child =
      Except.ok { name := "m.Child", module := "m", bases := ["m.Base"] } ∧
    ∃ c, c ∈ c9Child.bases ∧ c.name ≠ "object" ∧
      "m.Base" = get_full_class_path (fun _ => none) c :=
  ⟨rfl,
    C9_bases_exclusions.1 (fun _ => none) c9Child
      { name := "m.Child", module := "m", bases := ["m.Base"] } rfl
      "m.Base" (by simp)⟩

end Umlizer
